import Mathlib

/-!
# Verification of the battle-simulator unit model (`units.py`)

Shallow embedding of the `Unit` / `Soldier` / `Vehicle` classes.

Numeric values (Python `int` / `float`) are embedded as rationals `ℚ`;
the `experience` counter, an `int` in the source, is embedded as `ℤ`.
The injected `Random` instance is embedded as an explicit stream of raw
natural-number draws threaded through every call that consumes randomness:
`randint lo hi` maps one raw draw into the inclusive range `[lo, hi]`,
and `random.choice` maps one raw draw into an index of a non-empty list.
Operator identity (Python `is`) is modelled by position in the
`operators` list; each position holds a distinct object.
-/

namespace BattleSim

/-- The injected random source: a stream of raw draws (head consumed first,
an exhausted stream keeps yielding 0). -/
structure Rng where
  stream : List ℕ
deriving DecidableEq

/-- Consume one raw draw from the source. -/
def rngNext (r : Rng) : ℕ × Rng :=
  match r.stream with
  | [] => (0, ⟨[]⟩)
  | x :: rest => (x, ⟨rest⟩)

/-- `random_.randint(lo, hi)`: one fresh uniform draw, inclusive of both
bounds, folded from one raw stream element. -/
def randint (lo hi : ℤ) (r : Rng) : ℤ × Rng :=
  (lo + ((rngNext r).1 : ℤ) % (hi - lo + 1), (rngNext r).2)

/-- `Unit.health` setter body: store the value, then clamp to
`_init_health` from above, then clamp to `0` from below — the two `if`
statements in this exact order (`units.py` lines 30–41). -/
def healthSet (init_health : ℚ) (value : ℚ) : ℚ :=
  let h := value
  let h := if h > init_health then init_health else h
  if h < 0 then 0 else h

/-- `Soldier.experience` setter body: store, clamp to `50` from above,
then clamp to `0` from below (`units.py` lines 93–104). -/
def experienceSet (value : ℤ) : ℤ :=
  let e := value
  let e := if e > 50 then 50 else e
  if e < 0 then 0 else e

/-- State of a `Soldier`: the `Unit` fields plus `_experience`. -/
structure Soldier where
  init_health : ℚ
  recharge : ℚ
  health : ℚ
  last_attack : ℚ
  experience : ℤ
deriving DecidableEq

/-- `Soldier.__init__`: `_init_health = health`, then `self.health = health`
through the clamping setter, `last_attack = 0`, and `self.experience`
through the clamping experience setter. -/
def Soldier.make (health recharge : ℚ) (experience : ℤ) : Soldier :=
  { init_health := health
    recharge := recharge
    health := healthSet health health
    last_attack := 0
    experience := experienceSet experience }

/-- `Soldier.is_active`: `self.health > 0`. -/
def Soldier.is_active (s : Soldier) : Bool :=
  decide (0 < s.health)

/-- `Soldier.success`:
`0.5 * (1 + self.health / 100) * self.random_.randint(50 + self.experience, 100) / 100`.
Note the literal divisor `100`, not `_init_health`. -/
def Soldier.success (s : Soldier) (r : Rng) : ℚ × Rng :=
  (1/2 * (1 + s.health / 100) * (((randint (50 + s.experience) 100 r).1 : ℤ) : ℚ) / 100,
   (randint (50 + s.experience) 100 r).2)

/-- `Soldier.attack(now)`: set `last_attack = now` (through the numeric
setter), capture `experience`, assign `experience + 1` through the clamping
setter, return `0.05 + current_experience / 100`. -/
def Soldier.attack (s : Soldier) (now : ℚ) : ℚ × Soldier :=
  let s₁ : Soldier := { s with last_attack := now }
  let current_experience := s₁.experience
  let s₂ : Soldier := { s₁ with experience := experienceSet (s₁.experience + 1) }
  (1/20 + (current_experience : ℚ) / 100, s₂)

/-- `Soldier.get_damage(value)`: `self._health -= value` — a direct write to
the internal store, bypassing the clamping setter. -/
def Soldier.get_damage (s : Soldier) (value : ℚ) : Soldier :=
  { s with health := s.health - value }

/-- State of a `Vehicle`: the `Unit` fields plus the operator list. -/
structure Vehicle where
  init_health : ℚ
  recharge : ℚ
  health : ℚ
  last_attack : ℚ
  operators : List Soldier
deriving DecidableEq

/-- `Vehicle.__init__`: the `Unit` constructor plus the operator list. -/
def Vehicle.make (operators : List Soldier) (health recharge : ℚ) : Vehicle :=
  { init_health := health
    recharge := recharge
    health := healthSet health health
    last_attack := 0
    operators := operators }

/-- `Vehicle.is_active`: `self.health > 0 and any(o.is_active ...)`. -/
def Vehicle.is_active (v : Vehicle) : Bool :=
  decide (0 < v.health) && v.operators.any Soldier.is_active

/-- `Vehicle.attack(now)`: set `last_attack = now`, return
`0.1 + sum(o.experience for o in self.operators) / 100`. -/
def Vehicle.attack (v : Vehicle) (now : ℚ) : ℚ × Vehicle :=
  (1/10 + (((v.operators.map Soldier.experience).sum : ℤ) : ℚ) / 100,
   { v with last_attack := now })

/-- Placeholder operator used only as the default of positional lookups;
never reached at in-range indices. -/
def dummySoldier : Soldier :=
  { init_health := 0, recharge := 0, health := 0, last_attack := 0, experience := 0 }

/-- Indices of `alive_operators = [o for o in self.operators if o.is_active]`,
identifying operators by their position in `operators`. -/
def aliveIdx (ops : List Soldier) : List ℕ :=
  (List.range ops.length).filter (fun i => Soldier.is_active (ops.getD i dummySoldier))

/-- `random_.choice(alive_operators)`: one raw draw selects a position of
the non-empty alive list; the result is the operator index it holds. -/
def chooseAlive (ops : List Soldier) (raw : ℕ) : ℕ :=
  (aliveIdx ops).getD (raw % (aliveIdx ops).length) 0

/-- The crew part of `Vehicle.get_damage`, once the chosen index `j` is
fixed: `random_o.get_damage(percent_20)` on the chosen operator,
`rest_operators = [o for o in alive_operators if o is not random_o]`
(positional identity), and
`operator.get_damage(percent_20 / max(len(rest_operators), 1))` on each of
them. The chosen operator and the rest occupy disjoint positions, so the
source's sequential mutations equal this one positional map. -/
def damagedOperators (ops : List Soldier) (percent_20 : ℚ) (j : ℕ) : List Soldier :=
  let rest := (aliveIdx ops).filter (fun i => i ≠ j)
  let restShare := percent_20 / ((max rest.length 1 : ℕ) : ℚ)
  (List.range ops.length).map (fun i =>
    let o := ops.getD i dummySoldier
    if i = j then o.get_damage percent_20
    else if i ∈ rest then o.get_damage restShare
    else o)

/-- `Vehicle.get_damage(value)` (`units.py` lines 153–168):
`percent_60 = value / 100 * 60`; `percent_20 = value / 100 * 20`;
`self.health -= percent_60` through the clamping setter; filter the alive
operators; if any, `random_.choice` picks one of them and the crew damage of
`damagedOperators` is applied; if none, no crew damage and no draw. -/
def Vehicle.get_damage (v : Vehicle) (value : ℚ) (r : Rng) : Vehicle × Rng :=
  let percent_60 := value / 100 * 60
  let percent_20 := value / 100 * 20
  let newHull := healthSet v.init_health (v.health - percent_60)
  if aliveIdx v.operators = [] then
    ({ v with health := newHull }, r)
  else
    ({ v with
        health := newHull
        operators := damagedOperators v.operators percent_20
          (chooseAlive v.operators (rngNext r).1) },
     (rngNext r).2)

/-- `Unit.is_ready(now)`: `now - self.last_attack >= self.recharge`. -/
def is_ready (last_attack recharge now : ℚ) : Bool :=
  decide (recharge ≤ now - last_attack)

/-- A Python value arriving at a property setter: an `int`, a `float`, or
anything else (non-numeric). -/
inductive PyVal where
  | int (n : ℤ)
  | float (q : ℚ)
  | other
deriving DecidableEq

/-- `isinstance(value, int) or isinstance(value, float)`. -/
def PyVal.isNumeric : PyVal → Bool
  | .int _ => true
  | .float _ => true
  | .other => false

/-- `isinstance(value, int)`. -/
def PyVal.isInt : PyVal → Bool
  | .int _ => true
  | .float _ => false
  | .other => false

/-- The numeric content of an `int`/`float` value. -/
def PyVal.toRat : PyVal → ℚ
  | .int n => (n : ℚ)
  | .float q => q
  | .other => 0

/-- `Unit.health` setter with its type check: `raise TypeError` (leaving the
store untouched) on a non-numeric value, otherwise run the clamping body. -/
def Soldier.trySetHealth (s : Soldier) (v : PyVal) : Soldier × Option String :=
  match v with
  | .other => (s, some "health value must be the int/float instance")
  | .int n => ({ s with health := healthSet s.init_health (n : ℚ) }, none)
  | .float q => ({ s with health := healthSet s.init_health q }, none)

/-- `Unit.last_attack` setter with its type check: `raise TypeError` on a
non-numeric value, otherwise store the value (no clamping). -/
def Soldier.trySetLastAttack (s : Soldier) (v : PyVal) : Soldier × Option String :=
  match v with
  | .other => (s, some "last_attack value must be the int/float instance")
  | .int n => ({ s with last_attack := (n : ℚ) }, none)
  | .float q => ({ s with last_attack := q }, none)

/-- `Soldier.experience` setter with its type check: `raise TypeError` on a
non-`int` value (a `float` is not an `int`), otherwise run the clamping
body. -/
def Soldier.trySetExperience (s : Soldier) (v : PyVal) : Soldier × Option String :=
  match v with
  | .int n => ({ s with experience := experienceSet n }, none)
  | .float _ => (s, some "Experience value must be the (int) instance")
  | .other => (s, some "Experience value must be the (int) instance")

/-- One call of the driver-facing interface, for replay arguments. -/
inductive Call where
  | soldierSuccess
  | soldierAttack (now : ℚ)
  | soldierDamage (value : ℚ)
  | vehicleAttack (now : ℚ)
  | vehicleDamage (value : ℚ)
deriving DecidableEq

/-- A replayable world: one soldier, one vehicle, and the shared random
source. -/
structure Sim where
  soldier : Soldier
  vehicle : Vehicle
  rng : Rng
deriving DecidableEq

/-- Execute one call; returns the new world and the numeric output of the
call, if it produces one (`success` reads and `attack` payloads do,
`get_damage` does not). -/
def stepCall (w : Sim) (c : Call) : Sim × Option ℚ :=
  match c with
  | .soldierSuccess =>
      let (val, r') := w.soldier.success w.rng
      ({ w with rng := r' }, some val)
  | .soldierAttack now =>
      let (val, s') := w.soldier.attack now
      ({ w with soldier := s' }, some val)
  | .soldierDamage value =>
      ({ w with soldier := w.soldier.get_damage value }, none)
  | .vehicleAttack now =>
      let (val, v') := w.vehicle.attack now
      ({ w with vehicle := v' }, some val)
  | .vehicleDamage value =>
      let (v', r') := w.vehicle.get_damage value w.rng
      ({ w with vehicle := v', rng := r' }, none)

/-- Execute a sequence of calls, collecting every produced output. -/
def run (w : Sim) : List Call → Sim × List (Option ℚ)
  | [] => (w, [])
  | c :: cs =>
      let (w', out) := stepCall w c
      let (wFinal, outs) := run w' cs
      (wFinal, out :: outs)

/-! ## Helper lemmas -/

/-- The clamping setter, on a non-negative `_init_health`, computes the clamp
of the assigned value into `[0, _init_health]`. -/
lemma healthSet_eq_clamp (init v : ℚ) (h : 0 ≤ init) :
    healthSet init v = max 0 (min v init) := by
  simp only [healthSet]
  split_ifs with h1 h2 h3
  · linarith [le_max_left (0:ℚ) (min v init)]
  · rw [min_eq_right (le_of_lt h1), max_eq_right h]
  · rw [min_eq_left (not_lt.mp h1), max_eq_left (le_of_lt h3)]
  · rw [min_eq_left (not_lt.mp h1), max_eq_right (not_lt.mp h3)]

/-- On a negative `_init_health` the setter always stores `0`: the
clamp-to-`_init_health` branch runs first and the clamp-to-`0` branch then
overwrites its result. -/
lemma healthSet_neg_init (init v : ℚ) (h : init < 0) :
    healthSet init v = 0 := by
  simp only [healthSet]
  split_ifs <;> first | rfl | linarith

/-- One `randint` draw with `lo ≤ hi` lands inclusively in `[lo, hi]`. -/
lemma randint_bounds (lo hi : ℤ) (r : Rng) (h : lo ≤ hi) :
    lo ≤ (randint lo hi r).1 ∧ (randint lo hi r).1 ≤ hi := by
  have hm : 0 < hi - lo + 1 := by omega
  have h1 : 0 ≤ ((rngNext r).1 : ℤ) % (hi - lo + 1) :=
    Int.emod_nonneg _ (by omega)
  have h2 : ((rngNext r).1 : ℤ) % (hi - lo + 1) < hi - lo + 1 :=
    Int.emod_lt_of_pos _ hm
  constructor <;> simp only [randint] <;> omega

/-! ## Theorems about the claims -/

/-- C9: `Vehicle.attack(now)` only writes `last_attack`; the hull health,
the operator list (hence every operator's health, experience and
`last_attack`), `_init_health` and `recharge` are unchanged, and the payload
is `0.1 + sum(o.experience)/100`. -/
theorem vehicle_attack_frame (v : Vehicle) (now : ℚ) :
    (v.attack now).2.health = v.health
  ∧ (v.attack now).2.operators = v.operators
  ∧ (v.attack now).2.last_attack = now
  ∧ (v.attack now).2.init_health = v.init_health
  ∧ (v.attack now).2.recharge = v.recharge
  ∧ (v.attack now).1
      = 1/10 + (((v.operators.map Soldier.experience).sum : ℤ) : ℚ) / 100 :=
  ⟨rfl, rfl, rfl, rfl, rfl, rfl⟩

/-- C5: `Soldier.get_damage(value)` writes `health - value` straight into the
internal store with no clamping, so health goes below `0` whenever
`value > health` (and above `_init_health` for suitably negative `value`),
and the stored value is what every subsequent read returns. -/
theorem soldier_get_damage_bypasses_clamp (s : Soldier) (value : ℚ) :
    (s.get_damage value).health = s.health - value
  ∧ (s.get_damage value).init_health = s.init_health
  ∧ (s.get_damage value).experience = s.experience
  ∧ (s.health < value → (s.get_damage value).health < 0)
  ∧ (value < s.health - s.init_health →
       (s.get_damage value).init_health < (s.get_damage value).health) := by
  refine ⟨rfl, rfl, rfl, ?_, ?_⟩ <;>
    · intro h
      simp only [Soldier.get_damage]
      linarith

theorem soldier_get_damage_bypasses_clamp_witness :
    ((Soldier.make 100 100 0).get_damage 150).health
      = (Soldier.make 100 100 0).health - 150
    ∧ ((Soldier.make 100 100 0).get_damage 150).health < 0 := by
  have h := soldier_get_damage_bypasses_clamp (Soldier.make 100 100 0) 150
  exact ⟨h.1, h.2.2.2.1 (by decide)⟩

/-- C10: constructing any unit with a negative health argument `h` stores
`health = 0` while `_init_health = h`, so `health > _init_health` holds from
birth; and because the clamp-to-`_init_health` branch of the setter runs
before the clamp-to-`0` branch, every later assignment through the setter
again stores `0`, never re-establishing `health ≤ _init_health`. -/
theorem negative_initial_health_violation
    (h rec : ℚ) (e : ℤ) (ops : List Soldier) (hneg : h < 0) :
    (Soldier.make h rec e).health = 0
  ∧ (Soldier.make h rec e).init_health = h
  ∧ (Soldier.make h rec e).init_health < (Soldier.make h rec e).health
  ∧ (Vehicle.make ops h rec).health = 0
  ∧ (Vehicle.make ops h rec).init_health = h
  ∧ (Vehicle.make ops h rec).init_health < (Vehicle.make ops h rec).health
  ∧ (∀ v : ℚ, healthSet h v = 0) := by
  have h0 : healthSet h h = 0 := healthSet_neg_init h h hneg
  refine ⟨h0, rfl, ?_, h0, rfl, ?_, fun v => healthSet_neg_init h v hneg⟩ <;>
    · show h < healthSet h h
      rw [h0]; exact hneg

theorem negative_initial_health_violation_witness :
    (Soldier.make (-10) 100 0).health = 0
    ∧ (Soldier.make (-10) 100 0).init_health < (Soldier.make (-10) 100 0).health
    ∧ healthSet (-10) 5 = 0 := by
  have h := negative_initial_health_violation (-10) 100 0 [] (by decide)
  exact ⟨h.1, h.2.2.1, h.2.2.2.2.2.2 5⟩

/-- C3 counterexample: on a unit built with negative initial health
(`_init_health = -10`, reachable per C10), the canonical setter accepts the
numeric value `5` without error, yet afterwards
`0 ≤ health ≤ _init_health` fails, refuting the claim for *every* unit. -/
theorem health_setter_negative_init_cex :
    ((Soldier.make (-10) 100 0).trySetHealth (PyVal.int 5)).2 = none
    ∧ ¬ (0 ≤ ((Soldier.make (-10) 100 0).trySetHealth (PyVal.int 5)).1.health
          ∧ ((Soldier.make (-10) 100 0).trySetHealth (PyVal.int 5)).1.health
              ≤ ((Soldier.make (-10) 100 0).trySetHealth (PyVal.int 5)).1.init_health) := by
  constructor
  · rfl
  · intro hc
    have := hc.1.trans hc.2
    norm_num [Soldier.trySetHealth, Soldier.make, healthSet] at this

/-- C3 (amended): on every unit whose `_init_health` is non-negative, any
numeric value assigned through the canonical setter is stored clamped into
`[0, _init_health]`, so `0 ≤ health ≤ _init_health` holds immediately after
the assignment; this covers the hull step of `Vehicle.get_damage`, which
assigns through the same setter. -/
theorem health_setter_clamps (init v : ℚ) (h : 0 ≤ init) :
    healthSet init v = max 0 (min v init)
  ∧ 0 ≤ healthSet init v
  ∧ healthSet init v ≤ init := by
  have hc := healthSet_eq_clamp init v h
  refine ⟨hc, ?_, ?_⟩
  · rw [hc]; exact le_max_left _ _
  · rw [hc, max_le_iff]
    exact ⟨h, min_le_right _ _⟩

theorem health_setter_clamps_witness :
    healthSet 100 150 = max 0 (min 150 100)
    ∧ 0 ≤ healthSet 100 150 ∧ healthSet 100 150 ≤ 100 :=
  health_setter_clamps 100 150 (by norm_num)

/-- C4 counterexample: at `experience = 50` the increment inside `attack` is
clamped away — experience stays `50` instead of growing by exactly `1`. -/
theorem soldier_attack_experience_cap_cex :
    ((Soldier.make 100 100 50).attack 7).2.experience
      ≠ (Soldier.make 100 100 50).experience + 1 := by decide

/-- C4 (amended): `attack(now)` sets `last_attack = now`, assigns
`experience + 1` through the clamping setter — so experience grows by
exactly `1` while below `50` and is capped at `50` — and returns
`0.05 + e/100` where `e` is the experience captured before the increment. -/
theorem soldier_attack_spec (s : Soldier) (now : ℚ)
    (h0 : 0 ≤ s.experience) (h50 : s.experience ≤ 50) :
    (s.attack now).1 = 1/20 + (s.experience : ℚ) / 100
  ∧ (s.attack now).2.last_attack = now
  ∧ (s.attack now).2.experience = min (s.experience + 1) 50
  ∧ (s.attack now).2.health = s.health
  ∧ (s.attack now).2.init_health = s.init_health
  ∧ (s.attack now).2.recharge = s.recharge := by
  refine ⟨rfl, rfl, ?_, rfl, rfl, rfl⟩
  show experienceSet (s.experience + 1) = min (s.experience + 1) 50
  simp only [experienceSet]
  split_ifs <;> omega

theorem soldier_attack_spec_witness :
    ((Soldier.make 100 100 3).attack 7).1
        = 1/20 + ((Soldier.make 100 100 3).experience : ℚ) / 100
    ∧ ((Soldier.make 100 100 3).attack 7).2.experience
        = min ((Soldier.make 100 100 3).experience + 1) 50 := by
  have h := soldier_attack_spec (Soldier.make 100 100 3) 7 (by decide) (by decide)
  exact ⟨h.1, h.2.2.1⟩

/-- C1 counterexample: for a soldier built with `health = 50` (so
`_init_health = 50`), the first `success` read with raw draw `50` uses the
draw `r = 100` but returns `3/4`, while the claimed formula
`0.5 * (1 + health/initialHealth) * r / 100` gives `1`: the code divides by
the literal `100`, not by `_init_health`. -/
theorem soldier_success_const_100_cex :
    (randint (50 + (Soldier.make 50 100 0).experience) 100 (Rng.mk [50])).1 = 100
    ∧ ((Soldier.make 50 100 0).success (Rng.mk [50])).1
        ≠ 1/2 * (1 + (Soldier.make 50 100 0).health / (Soldier.make 50 100 0).init_health)
            * 100 / 100 := by
  constructor
  · rfl
  · intro hc
    norm_num [Soldier.success, Soldier.make, healthSet, randint, rngNext,
      experienceSet] at hc

/-- C1 (amended): every `success` read returns
`0.5 * (1 + health/100) * r / 100` — dividing by the literal `100`, not by
`_init_health` — where `r` is one fresh uniform integer draw inclusive in
`[50 + experience, 100]`, and the random source advances by exactly that one
draw. -/
theorem soldier_success_formula (s : Soldier) (r : Rng)
    (h50 : s.experience ≤ 50) :
    (s.success r).1
      = 1/2 * (1 + s.health / 100)
          * (((randint (50 + s.experience) 100 r).1 : ℤ) : ℚ) / 100
  ∧ (s.success r).2 = (randint (50 + s.experience) 100 r).2
  ∧ 50 + s.experience ≤ (randint (50 + s.experience) 100 r).1
  ∧ (randint (50 + s.experience) 100 r).1 ≤ 100 := by
  have hb := randint_bounds (50 + s.experience) 100 r (by omega)
  exact ⟨rfl, rfl, hb.1, hb.2⟩

theorem soldier_success_formula_witness :
    ((Soldier.make 100 100 0).success (Rng.mk [7])).1
        = 1/2 * (1 + (Soldier.make 100 100 0).health / 100)
            * (((randint (50 + (Soldier.make 100 100 0).experience) 100
                  (Rng.mk [7])).1 : ℤ) : ℚ) / 100
    ∧ 50 + (Soldier.make 100 100 0).experience
        ≤ (randint (50 + (Soldier.make 100 100 0).experience) 100 (Rng.mk [7])).1 := by
  have h := soldier_success_formula (Soldier.make 100 100 0) (Rng.mk [7]) (by decide)
  exact ⟨h.1, h.2.2.1⟩

/-- C6 counterexample: a soldier built with `health = 200` (so both stored
health and `_init_health` are `200`) reads `success = 3/2 > 1`, so `success`
is not always in `[0, 1]`. -/
theorem soldier_success_above_one_cex :
    1 < ((Soldier.make 200 100 0).success (Rng.mk [50])).1 := by
  norm_num [Soldier.success, Soldier.make, healthSet, randint, rngNext,
    experienceSet]

/-- C6 (amended): whenever the current health lies in `[0, 100]` and the
experience lies in `[0, 50]` (the range the experience setter maintains),
every `success` read returns a value in `[0, 1]`, whatever the
random-source state. -/
theorem soldier_success_bounded (s : Soldier) (r : Rng)
    (hh0 : 0 ≤ s.health) (hh1 : s.health ≤ 100)
    (he0 : 0 ≤ s.experience) (he1 : s.experience ≤ 50) :
    0 ≤ (s.success r).1 ∧ (s.success r).1 ≤ 1 := by
  have hb := randint_bounds (50 + s.experience) 100 r (by omega)
  set d := (randint (50 + s.experience) 100 r).1 with hd
  have hd0 : (0 : ℚ) ≤ (d : ℚ) := by
    have : (0 : ℤ) ≤ d := by omega
    exact_mod_cast this
  have hd100 : ((d : ℤ) : ℚ) ≤ 100 := by exact_mod_cast hb.2
  have hfac0 : (0 : ℚ) ≤ 1 + s.health / 100 := by linarith
  have hfac2 : 1 + s.health / 100 ≤ 2 := by linarith
  constructor
  · show 0 ≤ 1/2 * (1 + s.health / 100) * ((d : ℤ) : ℚ) / 100
    positivity
  · show 1/2 * (1 + s.health / 100) * ((d : ℤ) : ℚ) / 100 ≤ 1
    nlinarith [mul_le_mul hfac2 hd100 hd0 (by norm_num : (0:ℚ) ≤ 2)]

theorem soldier_success_bounded_witness :
    0 ≤ ((Soldier.make 100 100 0).success (Rng.mk [7])).1
    ∧ ((Soldier.make 100 100 0).success (Rng.mk [7])).1 ≤ 1 :=
  soldier_success_bounded (Soldier.make 100 100 0) (Rng.mk [7])
    (by decide) (by decide) (by decide) (by decide)

/-- C7: assigning a non-numeric value to `health` or `last_attack` raises a
`TypeError`, assigning a non-`int` value to `experience` raises a
`TypeError`; numeric assignments to `health`/`last_attack` and `int`
assignments to `experience` never raise; and whenever the error is raised
the previously stored state is unchanged (the `raise` precedes the write). -/
theorem setter_type_errors (s : Soldier) (v : PyVal) :
    ((s.trySetHealth v).2 = none ↔ v.isNumeric = true)
  ∧ ((s.trySetLastAttack v).2 = none ↔ v.isNumeric = true)
  ∧ ((s.trySetExperience v).2 = none ↔ v.isInt = true)
  ∧ ((s.trySetHealth v).2 ≠ none → (s.trySetHealth v).1 = s)
  ∧ ((s.trySetLastAttack v).2 ≠ none → (s.trySetLastAttack v).1 = s)
  ∧ ((s.trySetExperience v).2 ≠ none → (s.trySetExperience v).1 = s) := by
  cases v <;>
    simp [Soldier.trySetHealth, Soldier.trySetLastAttack, Soldier.trySetExperience,
      PyVal.isNumeric, PyVal.isInt]

theorem setter_type_errors_witness :
    ((Soldier.make 100 100 0).trySetHealth PyVal.other).1 = Soldier.make 100 100 0
    ∧ ((Soldier.make 100 100 0).trySetExperience (PyVal.float (1/2))).1
        = Soldier.make 100 100 0 :=
  ⟨(setter_type_errors (Soldier.make 100 100 0) PyVal.other).2.2.2.1 (by decide),
   (setter_type_errors (Soldier.make 100 100 0) (PyVal.float (1/2))).2.2.2.2.2 (by decide)⟩

/-- C8: two runs from equal unit states and identically seeded random
sources, performing the same sequence of `success` reads, `attack` calls and
`get_damage` calls, produce equal outputs at every call (success values,
attack payloads) and equal final states (health, experience, `last_attack`,
operators, and random source — hence the same random-operator selections). -/
theorem deterministic_replay (w₁ w₂ : Sim) (cs₁ cs₂ : List Call)
    (hw : w₁ = w₂) (hc : cs₁ = cs₂) :
    run w₁ cs₁ = run w₂ cs₂ := by
  rw [hw, hc]

theorem deterministic_replay_witness :
    run ⟨Soldier.make 100 100 0, Vehicle.make [Soldier.make 100 100 0] 100 1001,
          Rng.mk [3, 7]⟩
        [Call.soldierSuccess, Call.vehicleDamage 50]
      = run ⟨Soldier.make 100 100 0, Vehicle.make [Soldier.make 100 100 0] 100 1001,
          Rng.mk [3, 7]⟩
        [Call.soldierSuccess, Call.vehicleDamage 50] :=
  deterministic_replay _ _ _ _ rfl rfl

/-! ## Lemmas about the damage distribution of `Vehicle.get_damage` -/

lemma getD_map_range {α : Type} {f : ℕ → α} {n i : ℕ} (hi : i < n) (d : α) :
    ((List.range n).map f).getD i d = f i := by
  rw [List.getD_eq_getElem?_getD, List.getElem?_map, List.getElem?_range hi]
  rfl

lemma getD_mem_of_lt {l : List ℕ} {i : ℕ} (d : ℕ) (h : i < l.length) :
    l.getD i d ∈ l := by
  rw [List.getD_eq_getElem _ _ h]
  exact List.getElem_mem h

lemma aliveIdx_nodup (ops : List Soldier) : (aliveIdx ops).Nodup :=
  (List.nodup_range _).filter _

lemma mem_aliveIdx_lt {ops : List Soldier} {i : ℕ} (h : i ∈ aliveIdx ops) :
    i < ops.length :=
  List.mem_range.mp (List.mem_filter.mp h).1

lemma mem_aliveIdx_active {ops : List Soldier} {i : ℕ} (h : i ∈ aliveIdx ops) :
    Soldier.is_active (ops.getD i dummySoldier) = true :=
  (List.mem_filter.mp h).2

lemma filter_ne_length {l : List ℕ} (hnd : l.Nodup) {j : ℕ} (hj : j ∈ l) :
    (l.filter (fun i => i ≠ j)).length = l.length - 1 := by
  have hpred : (fun i : ℕ => decide (i ≠ j)) = (fun i : ℕ => i != j) := by
    funext i
    cases Decidable.em (i = j) with
    | inl h => subst h; simp
    | inr h => simp [h, bne_iff_ne]
  show (l.filter (fun i => decide (i ≠ j))).length = l.length - 1
  rw [hpred, ← List.Nodup.erase_eq_filter hnd j]
  exact List.length_erase_of_mem hj

lemma chooseAlive_mem {ops : List Soldier} (raw : ℕ) (h : aliveIdx ops ≠ []) :
    chooseAlive ops raw ∈ aliveIdx ops := by
  have hlen : 0 < (aliveIdx ops).length := List.length_pos.mpr h
  exact getD_mem_of_lt 0 (Nat.mod_lt _ hlen)

lemma damagedOperators_length (ops : List Soldier) (p : ℚ) (j : ℕ) :
    (damagedOperators ops p j).length = ops.length := by
  simp [damagedOperators]

lemma damagedOperators_getD_chosen (ops : List Soldier) (p : ℚ) {j : ℕ}
    (hjlt : j < ops.length) :
    (damagedOperators ops p j).getD j dummySoldier
      = (ops.getD j dummySoldier).get_damage p := by
  simp only [damagedOperators]
  rw [getD_map_range hjlt]
  simp

lemma damagedOperators_getD_rest (ops : List Soldier) (p : ℚ) {i j : ℕ}
    (hj : j ∈ aliveIdx ops) (hi : i ∈ aliveIdx ops) (hne : i ≠ j) :
    (damagedOperators ops p j).getD i dummySoldier
      = (ops.getD i dummySoldier).get_damage
          (p / (((aliveIdx ops).length : ℚ) - 1)) := by
  have hilt : i < ops.length := mem_aliveIdx_lt hi
  have hirest : i ∈ (aliveIdx ops).filter (fun i2 => i2 ≠ j) := by
    rw [List.mem_filter]
    exact ⟨hi, by simp [hne]⟩
  have hrlen : ((aliveIdx ops).filter (fun i2 => i2 ≠ j)).length
      = (aliveIdx ops).length - 1 :=
    filter_ne_length (aliveIdx_nodup ops) hj
  have hk1 : 1 ≤ (aliveIdx ops).length :=
    List.length_pos.mpr (List.ne_nil_of_mem hj)
  have hk2 : 2 ≤ (aliveIdx ops).length := by
    have h1 : 0 < ((aliveIdx ops).filter (fun i2 => i2 ≠ j)).length :=
      List.length_pos.mpr (List.ne_nil_of_mem hirest)
    omega
  simp only [damagedOperators]
  rw [getD_map_range hilt]
  rw [if_neg hne, if_pos hirest]
  congr 1
  rw [hrlen, max_eq_left (by omega : 1 ≤ (aliveIdx ops).length - 1),
    Nat.cast_sub hk1, Nat.cast_one]

lemma damagedOperators_getD_dead (ops : List Soldier) (p : ℚ) {i j : ℕ}
    (hilt : i < ops.length) (hna : i ∉ aliveIdx ops) (hj : j ∈ aliveIdx ops) :
    (damagedOperators ops p j).getD i dummySoldier
      = ops.getD i dummySoldier := by
  have hne : i ≠ j := fun h => hna (h ▸ hj)
  have hnr : i ∉ (aliveIdx ops).filter (fun i2 => i2 ≠ j) := by
    intro hmem
    exact hna (List.mem_filter.mp hmem).1
  simp only [damagedOperators]
  rw [getD_map_range hilt]
  rw [if_neg hne, if_neg hnr]

/-- C2: `Vehicle.get_damage(value)` applies `0.6 * value` to the hull
through the clamping setter; with `k ≥ 1` alive operators at the moment of
the call, the randomly chosen alive operator takes exactly `0.2 * value`
via its own `get_damage`, each of the other `k - 1` alive operators takes
exactly `0.2 * value / (k - 1)`, and dead operators are untouched; with
`k = 0` no operator takes damage (the crew share is discarded) and no draw
is consumed. -/
theorem vehicle_get_damage_distribution (veh : Vehicle) (value : ℚ) (r : Rng) :
    (veh.get_damage value r).1.health
        = healthSet veh.init_health (veh.health - 6/10 * value)
  ∧ (veh.get_damage value r).1.init_health = veh.init_health
  ∧ (aliveIdx veh.operators = [] →
        (veh.get_damage value r).1.operators = veh.operators
        ∧ (veh.get_damage value r).2 = r)
  ∧ (aliveIdx veh.operators ≠ [] →
        (veh.get_damage value r).1.operators.length = veh.operators.length
        ∧ ∃ j ∈ aliveIdx veh.operators,
            (veh.get_damage value r).1.operators.getD j dummySoldier
              = (veh.operators.getD j dummySoldier).get_damage (2/10 * value)
          ∧ (∀ i ∈ aliveIdx veh.operators, i ≠ j →
              (veh.get_damage value r).1.operators.getD i dummySoldier
                = (veh.operators.getD i dummySoldier).get_damage
                    (2/10 * value / (((aliveIdx veh.operators).length : ℚ) - 1)))
          ∧ (∀ i < veh.operators.length, i ∉ aliveIdx veh.operators →
              (veh.get_damage value r).1.operators.getD i dummySoldier
                = veh.operators.getD i dummySoldier)) := by
  have h60 : veh.health - value / 100 * 60 = veh.health - 6/10 * value := by ring
  have h20 : value / 100 * 20 = 2/10 * value := by ring
  by_cases hnil : aliveIdx veh.operators = []
  · have hgd : veh.get_damage value r
        = ({ veh with
              health := healthSet veh.init_health (veh.health - value / 100 * 60) },
           r) := by
      simp only [Vehicle.get_damage, if_pos hnil]
    rw [hgd]
    exact ⟨by rw [h60], rfl, fun _ => ⟨rfl, rfl⟩, fun h => absurd hnil h⟩
  · have hgd : veh.get_damage value r
        = ({ veh with
              health := healthSet veh.init_health (veh.health - value / 100 * 60)
              operators := damagedOperators veh.operators (value / 100 * 20)
                (chooseAlive veh.operators (rngNext r).1) },
           (rngNext r).2) := by
      simp only [Vehicle.get_damage, if_neg hnil]
    have hj : chooseAlive veh.operators (rngNext r).1 ∈ aliveIdx veh.operators :=
      chooseAlive_mem _ hnil
    have hjlt : chooseAlive veh.operators (rngNext r).1 < veh.operators.length :=
      mem_aliveIdx_lt hj
    rw [hgd]
    refine ⟨by rw [h60], rfl, fun h => absurd h hnil, fun _ => ?_⟩
    refine ⟨damagedOperators_length _ _ _, chooseAlive veh.operators (rngNext r).1,
      hj, ?_, ?_, ?_⟩
    · rw [damagedOperators_getD_chosen veh.operators _ hjlt, h20]
    · intro i hi hne
      rw [damagedOperators_getD_rest veh.operators _ hj hi hne, h20]
    · intro i hilt hna
      exact damagedOperators_getD_dead veh.operators _ hilt hna hj

theorem vehicle_get_damage_distribution_witness :
    aliveIdx (Vehicle.make [Soldier.make 100 100 0, Soldier.make 80 100 3]
        100 1001).operators ≠ []
    ∧ ((Vehicle.make [Soldier.make 100 100 0, Soldier.make 80 100 3]
          100 1001).get_damage 100 (Rng.mk [1])).1.operators.length
        = (Vehicle.make [Soldier.make 100 100 0, Soldier.make 80 100 3]
            100 1001).operators.length
    ∧ ((Vehicle.make [Soldier.make 100 100 0, Soldier.make 80 100 3]
          100 1001).get_damage 100 (Rng.mk [1])).1.health
        = healthSet (Vehicle.make [Soldier.make 100 100 0, Soldier.make 80 100 3]
            100 1001).init_health
            ((Vehicle.make [Soldier.make 100 100 0, Soldier.make 80 100 3]
              100 1001).health - 6/10 * 100) := by
  have h := vehicle_get_damage_distribution
    (Vehicle.make [Soldier.make 100 100 0, Soldier.make 80 100 3] 100 1001)
    100 (Rng.mk [1])
  exact ⟨by decide, (h.2.2.2 (by decide)).1, h.1⟩

end BattleSim
